import Mathlib

/-
Verification of the forensic log analyser's core (forensic_parser.py):
the line-grammar parser (`parse_logs_from_directory`, lines 15-34) and the
correlation engine (`custom_anomaly_detection`, lines 61-137).

Shallow embedding conventions:
* A parsed record (one element of `entries`, lines 28-32) is the `Event`
  structure; the derived `datetime` column is represented by the integer
  `timestamp` it is computed from (line 31 / line 62: both renderings are
  strictly monotone in the epoch seconds, and every comparison the engine
  makes on datetimes — ordering at lines 63/69 and the difference at
  line 80 — factors through the epoch value).
* An anomaly dict (lines 81-90, 97-106, 111-120, 126-135) is the `Anomaly`
  structure; its `timestamp` field holds the epoch seconds whose
  `strftime("%Y-%m-%d %H:%M:%S")` rendering the code stores.
* `pandas.sort_values(by='datetime')` (lines 63 and 69) is modelled as an
  ascending insertion sort on the timestamp key (`sortTs`).  The call
  uses the default quicksort kind, which does not document the relative
  order of equal keys, so every theorem below relies only on properties
  shared by all sort kinds — membership, permutation and ascending
  timestamps — and never on the model's particular tie order.
* `df.groupby('actor')` (line 66) enumerates group keys in ascending
  sorted order (pandas' documented default, sort=True) and keeps the
  frame's row order inside each group; `groupKeys`/`actorView` model this.
* `pd.DataFrame([])` (line 34, when no line matched) has no columns, so
  `df['timestamp']` at line 62 raises `KeyError`; `custom_anomaly_detection`
  therefore returns `Except`, erring exactly on the empty batch.
* The regex at lines 16-18 is embedded segment by segment.  All capture
  groups except `actor` use character classes that exclude their own
  delimiter, so Python's backtracking never revisits them and each is a
  maximal-munch scan; the `(?P<actor>[^=]+)=*>(?P<target>.+)` tail does
  backtrack and is embedded by `actorArrow` (longest actor first, exactly
  re's order).
-/

/-- Event is one parsed log record: the dict built at lines 28-32 from the
named capture groups of the regex at lines 16-18, plus the source file name. -/
structure Event where
  log_id : String
  timestamp : Nat
  event_type : String
  action : String
  actor_type : String
  actor : String
  target : String
  file : String
deriving DecidableEq, Repr

/-- Anomaly is one detection finding: the dict appended at lines 81-90,
97-106, 111-120 or 126-135. -/
structure Anomaly where
  timestamp : Nat
  user : String
  reason : String
  details : String
  ip_address : String
  action_type : String
  severity : String
  log_source : String
deriving DecidableEq, Repr

/-- Default Event used for out-of-range list access (never reached: every
index the engine uses is in range). -/
def dEv : Event :=
  { log_id := "", timestamp := 0, event_type := "", action := "",
    actor_type := "", actor := "", target := "", file := "" }

-- ===== string primitives (Python `in`, `endswith`, `<`) =====

/-- Boolean list-prefix test, used to build the substring test. -/
def isPrefixB : List Char → List Char → Bool
  | [], _ => true
  | _ :: _, [] => false
  | a :: as, b :: bs => decide (a = b) && isPrefixB as bs

/-- Boolean substring (contiguous) test on character lists. -/
def isInfixB (sub : List Char) : List Char → Bool
  | [] => sub.isEmpty
  | b :: bs => isPrefixB sub (b :: bs) || isInfixB sub bs

/-- Python's `sub in s` substring operator. -/
def pyIn (sub s : String) : Bool := isInfixB sub.data s.data

/-- Python's `s.endswith(suf)` for a single suffix. -/
def pyEndsWith (s suf : String) : Bool := isPrefixB suf.data.reverse s.data.reverse

/-- Lexicographic code-point comparison of character lists: Python's `<`
on strings, which is the order pandas' sorted groupby keys follow. -/
def charListLt : List Char → List Char → Bool
  | _, [] => false
  | [], _ :: _ => true
  | a :: as, b :: bs =>
    if a < b then true else if b < a then false else charListLt as bs

/-- Python's `a < b` on strings. -/
def strLtB (a b : String) : Bool := charListLt a.data b.data

-- ===== the event grammar parser (lines 15-34) =====

/-- Whitespace set of Python's `str.strip()` (ASCII part; the log grammar
contains none of the rarer Unicode spaces). -/
def pyIsSpace (c : Char) : Bool :=
  decide (c = ' ') || decide (c = '\t') || decide (c = '\n') ||
  decide (c = '\r') || decide (c = '\x0b') || decide (c = '\x0c')

/-- Python's `line.strip()` (line 26): drop whitespace at both ends. -/
def pyStrip (s : List Char) : List Char :=
  ((s.dropWhile pyIsSpace).reverse.dropWhile pyIsSpace).reverse

/-- Maximal-munch capture of a non-empty run of characters satisfying `p`:
the semantics of the regex pieces `[0-9a-fA-F]+`, `\d+`, `[^!]+`, `[^_]+`,
`[^:]+` (each followed by a delimiter its class excludes, so Python's
backtracking cannot shorten the run). -/
def capture (p : Char → Bool) (s : List Char) : Option (List Char × List Char) :=
  if (s.takeWhile p).isEmpty then none else some (s.takeWhile p, s.dropWhile p)

/-- Literal text expected at the current position (regex literals such as
`[ts:`, `]|EVNT:`, `!@`). -/
def expectS : List Char → List Char → Option (List Char)
  | [], s => some s
  | e :: es, c :: cs => if c = e then expectS es cs else none
  | _ :: _, [] => none

/-- Base-10 digits to a natural number: `int(data['timestamp'])` (line 29,
Python ints are unbounded). -/
def digitsToNat (ds : List Char) : Nat :=
  ds.foldl (fun n c => n * 10 + (c.toNat - 48)) 0

/-- Hexadecimal digit class `[0-9a-fA-F]`. -/
def isHexDigitB (c : Char) : Bool :=
  (decide (48 ≤ c.toNat) && decide (c.toNat ≤ 57)) ||
  (decide (97 ≤ c.toNat) && decide (c.toNat ≤ 102)) ||
  (decide (65 ≤ c.toNat) && decide (c.toNat ≤ 70))

/-- Decimal digit class `\d`. -/
def isDigitB (c : Char) : Bool := decide (48 ≤ c.toNat) && decide (c.toNat ≤ 57)

/-- Backtracking fallback of the `(?P<actor>[^=]+)=*>(?P<target>.+)` tail:
after the greedy (full `=`-free prefix) candidate fails, re retries actor
lengths `k, k-1, …, 1` inside the `=`-free prefix `pre`; such a shorter
actor is followed by zero `=` signs, so position `k` must hold the `>` and
the rest (`pre` beyond it plus `post`) must be non-empty for `.+`. -/
def shortK : Nat → List Char → List Char → Option (List Char × List Char)
  | 0, _, _ => none
  | k + 1, pre, post =>
    if decide (pre.getD (k + 1) '=' = '>') && !(pre.drop (k + 2) ++ post).isEmpty
    then some (pre.take (k + 1), pre.drop (k + 2) ++ post)
    else shortK k pre post

/-- Embedding of the regex tail `(?P<actor>[^=]+)=*>(?P<target>.+)`:
the greedy candidate takes the whole `=`-free prefix as actor, lets `=*`
swallow the maximal run of `=`, and requires a `>` plus a non-empty
target; on failure re backtracks to shorter actors (`shortK`). -/
def actorArrow (s : List Char) : Option (List Char × List Char) :=
  let pre := s.takeWhile (fun c => decide (c ≠ '='))
  let post := s.dropWhile (fun c => decide (c ≠ '='))
  if pre.isEmpty then none
  else
    match post.dropWhile (fun c => decide (c = '=')) with
    | '>' :: t => if t.isEmpty then shortK (pre.length - 1) pre post else some (pre, t)
    | _ => shortK (pre.length - 1) pre post

/-- Embedding of `pattern.match(line.strip())` plus the record construction
of lines 26-32 for one line of file `fname`: `none` exactly when the regex
does not match (the line is then silently dropped, line 27). -/
def parse_line (fname line : String) : Option Event :=
  (match pyStrip line.data with
   | '0' :: 'x' :: r => some r
   | _ => none).bind fun r0 =>
  (capture isHexDigitB r0).bind fun hx =>
  (expectS "[ts:".data hx.2).bind fun r2 =>
  (capture isDigitB r2).bind fun ds =>
  (expectS "]|EVNT:".data ds.2).bind fun r4 =>
  (capture (fun c => decide (c ≠ '!')) r4).bind fun et =>
  (expectS "!@".data et.2).bind fun r6 =>
  (capture (fun c => decide (c ≠ '_')) r6).bind fun ac =>
  (expectS "_".data ac.2).bind fun r8 =>
  (capture (fun c => decide (c ≠ ':')) r8).bind fun at_ =>
  (expectS ":".data at_.2).bind fun r10 =>
  (actorArrow r10).bind fun av =>
  some { log_id := ⟨'0' :: 'x' :: hx.1⟩, timestamp := digitsToNat ds.1,
         event_type := ⟨et.1⟩, action := ⟨ac.1⟩, actor_type := ⟨at_.1⟩,
         actor := ⟨av.1⟩, target := ⟨av.2⟩, file := fname }

/-- Embedding of the per-file parsing loop (lines 25-32): matching lines
become Events in file order, non-matching lines are dropped. -/
def parse_lines (fname : String) (lines : List String) : List Event :=
  lines.filterMap (parse_line fname)

-- ===== the suspicious-resource catalog =====

/-- Catalog of suspicious binaries (line 12), substring-matched by Rule 3. -/
def suspicious_binaries : List String :=
  ["/bin/xz", "/bin/nc", "/usr/bin/python3", "/usr/bin/perl"]

/-- Suffix tuple of `path.endswith(('.exe', '.bin', '.out', '.so'))`
(line 125), used by Rule 4. -/
def del_extensions : List String := [".exe", ".bin", ".out", ".so"]

/-- Sensitive path list `['/bin/', '/tmp/', '/sbin/', '/usr/local/bin/']`
(line 125), substring-matched by Rule 4. -/
def sensitive_paths : List String := ["/bin/", "/tmp/", "/sbin/", "/usr/local/bin/"]

-- ===== the event repository (lines 62-69) =====

/-- Insertion step of the timestamp sort: walks past strictly smaller
timestamps. -/
def insertTs (e : Event) : List Event → List Event
  | [] => [e]
  | b :: r => if b.timestamp < e.timestamp then b :: insertTs e r else e :: b :: r

/-- Model of `sort_values(by='datetime')` (lines 63 and 69): an ascending
sort on the timestamp key.  The code's default quicksort kind leaves the
relative order of equal timestamps unspecified, so proofs use only the
membership, permutation and sortedness of the result — facts every sort
kind guarantees. -/
def sortTs : List Event → List Event
  | [] => []
  | e :: l => insertTs e (sortTs l)

/-- Boolean "ascending by timestamp" check on an event list. -/
def tsSortedB : List Event → Bool
  | a :: b :: r => decide (a.timestamp ≤ b.timestamp) && tsSortedB (b :: r)
  | _ => true

/-- Sorted insertion of a group key, keeping the key list strictly
ascending and duplicate-free. -/
def insertKey (a : String) : List String → List String
  | [] => [a]
  | b :: r =>
    if strLtB a b then a :: b :: r
    else if a = b then b :: r
    else b :: insertKey a r

/-- Model of the keys of `df.groupby('actor')` (line 66): the distinct
actor values in ascending string order, which is the order pandas
enumerates groups in (sort=True default). -/
def groupKeys (events : List Event) : List String :=
  events.foldl (fun ks e => insertKey e.actor ks) []

/-- Boolean "strictly ascending" check on a string list. -/
def strSortedB : List String → Bool
  | a :: b :: r => strLtB a b && strSortedB (b :: r)
  | _ => true

/-- Per-actor view the engine iterates (lines 62-69): the frame is sorted
by datetime (line 63), `groupby` keeps that order inside the actor's
group, and line 69 sorts the group by datetime again. -/
def actorView (events : List Event) (a : String) : List Event :=
  sortTs ((sortTs events).filter (fun e => decide (e.actor = a)))

-- ===== the correlation engine (lines 61-137) =====

/-- Reconstructed log text of line 74:
`f"{event_type}!@{action}_{actor_type}:{actor}=>{target}"`. -/
def logText (e : Event) : String :=
  e.event_type ++ "!@" ++ e.action ++ "_" ++ e.actor_type ++ ":" ++ e.actor ++ "=>" ++ e.target

/-- Anomaly dict of Rule 1 (lines 81-90), keyed at the `DEL` event `ej`. -/
def mkRule1 (user : String) (ei ej : Event) : Anomaly :=
  { timestamp := ej.timestamp, user := user,
    reason := "Shadow load followed by process delete",
    details := logText ei ++ " → " ++ ej.target, ip_address := "N/A",
    action_type := "Delete", severity := "High", log_source := ej.file }

/-- Anomaly dict of Rule 2 (lines 97-106). -/
def mkRule2 (user : String) (ei ej : Event) : Anomaly :=
  { timestamp := ej.timestamp, user := user,
    reason := "Created then deleted same file",
    details := logText ei ++ " → " ++ ej.target, ip_address := "N/A",
    action_type := "Delete", severity := "Medium", log_source := ej.file }

/-- Anomaly dict of Rule 3 (lines 111-120). -/
def mkRule3 (user : String) (ei : Event) : Anomaly :=
  { timestamp := ei.timestamp, user := user,
    reason := "Suspicious binary executed",
    details := logText ei, ip_address := "N/A",
    action_type := "Execute", severity := "High", log_source := ei.file }

/-- Anomaly dict of Rule 4 (lines 126-135). -/
def mkRule4 (user : String) (ei : Event) : Anomaly :=
  { timestamp := ei.timestamp, user := user,
    reason := "Deleted binary/suspicious executable file",
    details := logText ei, ip_address := "N/A",
    action_type := "Delete", severity := "High", log_source := ei.file }

/-- Look-ahead window `range(i+1, min(i+6, len(logs)))` of lines 78/95. -/
def windowIdxs (i len : Nat) : List Nat :=
  List.range' (i + 1) (min (i + 6) len - (i + 1))

/-- Body of Rule 1's inner loop (lines 79-90) at window index `j`: emit
iff `action[j]` contains "DEL" and the time difference is at most 600
seconds (line 80; the difference of the two datetimes in seconds is the
difference of the epoch timestamps). -/
def rule1Emit (user : String) (logs : List Event) (i j : Nat) : Option Anomaly :=
  if pyIn "DEL" (logs.getD j dEv).action then
    if ((logs.getD j dEv).timestamp : Int) - ((logs.getD i dEv).timestamp : Int) ≤ 600 then
      some (mkRule1 user (logs.getD i dEv) (logs.getD j dEv))
    else none
  else none

/-- Rule 1 block at index `i` (lines 77-90). -/
def rule1At (user : String) (logs : List Event) (i : Nat) : List Anomaly :=
  if pyIn "SHD" (logs.getD i dEv).action then
    (windowIdxs i logs.length).filterMap (rule1Emit user logs i)
  else []

/-- Body of Rule 2's inner loop (lines 96-106) at window index `j`: emit
iff `action[j]` contains "DEL" and the created path (`target[i]`) is a
substring of `target[j]`. -/
def rule2Emit (user : String) (logs : List Event) (i j : Nat) : Option Anomaly :=
  if pyIn "DEL" (logs.getD j dEv).action && pyIn (logs.getD i dEv).target (logs.getD j dEv).target then
    some (mkRule2 user (logs.getD i dEv) (logs.getD j dEv))
  else none

/-- Rule 2 block at index `i` (lines 93-106). -/
def rule2At (user : String) (logs : List Event) (i : Nat) : List Anomaly :=
  if pyIn "CRE" (logs.getD i dEv).action then
    (windowIdxs i logs.length).filterMap (rule2Emit user logs i)
  else []

/-- Rule 3 block at index `i` (lines 109-120): no look-ahead. -/
def rule3At (user : String) (logs : List Event) (i : Nat) : List Anomaly :=
  if pyIn "RUN" (logs.getD i dEv).action then
    if suspicious_binaries.any (fun b => pyIn b (logs.getD i dEv).target) then
      [mkRule3 user (logs.getD i dEv)]
    else []
  else []

/-- Rule 4 block at index `i` (lines 123-135): no look-ahead. -/
def rule4At (user : String) (logs : List Event) (i : Nat) : List Anomaly :=
  if pyIn "DEL" (logs.getD i dEv).action then
    if del_extensions.any (fun x => pyEndsWith (logs.getD i dEv).target x)
       || sensitive_paths.any (fun p => pyIn p (logs.getD i dEv).target) then
      [mkRule4 user (logs.getD i dEv)]
    else []
  else []

/-- Anomalies appended during loop iteration `i` of lines 70-135, in the
code's append order: Rule 1, then 2, then 3, then 4 (each window loop runs
ascending in `j`). -/
def anomaliesAt (user : String) (logs : List Event) (i : Nat) : List Anomaly :=
  rule1At user logs i ++ rule2At user logs i ++ rule3At user logs i ++ rule4At user logs i

/-- Anomalies of one actor's group: the loop of lines 70-135 over
`i = 0 … len-1` of the time-sorted group. -/
def anomaliesFor (user : String) (logs : List Event) : List Anomaly :=
  (List.range logs.length).flatMap (anomaliesAt user logs)

/-- Engine pass of lines 62-135 on a non-empty batch: the anomaly list in
emission order, paired with the input frame's final state (line 62
recomputes the derived datetime column and line 63 sorts the frame in
place, so the caller's frame ends up timestamp-sorted). -/
def detectBody (events : List Event) : List Anomaly × List Event :=
  ((groupKeys events).flatMap (fun a => anomaliesFor a (actorView events a)),
   sortTs events)

/-- Embedding of `custom_anomaly_detection` (lines 61-137).  The frame the
program feeds it is `pd.DataFrame(entries)` (line 34); with zero parsed
events that frame has no columns at all, so the column read
`df['timestamp']` at line 62 raises `KeyError` — modelled as `Except.error`.
Otherwise the rule pass runs and the anomaly list is returned (the
HTML-report block at lines 138-186 only renders it). -/
def custom_anomaly_detection (events : List Event) : Except String (List Anomaly × List Event) :=
  if events.isEmpty then .error "KeyError: 'timestamp'" else .ok (detectBody events)

-- ===== helper lemmas about the parser =====

/-- Capturing a non-empty run succeeds only with a non-empty capture. -/
theorem capture_ne {p : Char → Bool} {s : List Char} {x : List Char × List Char}
    (h : capture p s = some x) : x.1 ≠ [] := by
  unfold capture at h
  split at h
  · exact absurd h (by simp)
  · next he =>
    cases h
    simpa [List.isEmpty_iff] using he

/-- Backtracking fallback candidates always carry a non-empty actor and a
non-empty target. -/
theorem shortK_ne : ∀ (k : Nat) (pre post : List Char) (x : List Char × List Char),
    shortK k pre post = some x → x.1 ≠ [] ∧ x.2 ≠ [] := by
  intro k
  induction k with
  | zero => intro pre post x h; exact absurd h (by simp [shortK])
  | succ k ih =>
    intro pre post x h
    unfold shortK at h
    split at h
    · next hc =>
      cases h
      simp only [Bool.and_eq_true, decide_eq_true_eq, Bool.not_eq_true'] at hc
      cases pre with
      | nil => simp at hc
      | cons a pr =>
        refine ⟨by simp, ?_⟩
        show List.drop (k + 2) (a :: pr) ++ post ≠ []
        intro hn
        rw [hn] at hc
        simp at hc
    · exact ih pre post x h

/-- Successful arrow-tail matches have a non-empty actor and target. -/
theorem actorArrow_ne {s : List Char} {x : List Char × List Char}
    (h : actorArrow s = some x) : x.1 ≠ [] ∧ x.2 ≠ [] := by
  simp only [actorArrow] at h
  split at h
  · exact absurd h (by simp)
  · next hpre =>
    split at h
    · next t heq =>
      split at h
      · exact shortK_ne _ _ _ _ h
      · next ht =>
        cases h
        refine ⟨by simpa [List.isEmpty_iff] using hpre, by simpa [List.isEmpty_iff] using ht⟩
    · exact shortK_ne _ _ _ _ h

/-- Strings built from non-empty character lists are non-empty. -/
theorem mkStr_ne_empty {l : List Char} (h : l ≠ []) : (⟨l⟩ : String) ≠ "" := by
  intro he
  exact h (by simpa using congrArg String.data he)

-- ===== claim theorems: parser =====

/-- C2 (counterexample): the claim says a line that matches the grammar up
to and including the arrow, with nothing after the arrow, parses to an
Event with empty target.  The regex's target group is `(.+)` — one or MORE
characters — so such a line does not match at all: `...:alice=>` is
silently dropped. -/
theorem parse_line_empty_target_fails :
    parse_line "a.vlog" "0x1[ts:5]|EVNT:E!@CRE_U:alice=>" = none := by rfl

/-- C2 (amended): an input line with no characters after the arrow does
not parse (the target group requires at least one character); on every
successful parse, every captured field — including the target — is
non-empty. -/
theorem parse_line_fields_nonempty (fname line : String) (ev : Event)
    (h : parse_line fname line = some ev) :
    ev.log_id ≠ "" ∧ ev.event_type ≠ "" ∧ ev.action ≠ "" ∧
    ev.actor_type ≠ "" ∧ ev.actor ≠ "" ∧ ev.target ≠ "" := by
  unfold parse_line at h
  simp only [Option.bind_eq_some] at h
  obtain ⟨r0, h0, hx, hhx, r2, h2, ds, hds, r4, h4, et, het, r6, h6,
    ac, hac, r8, h8, at_, hat, r10, h10, av, hav, h⟩ := h
  injection h with h
  subst h
  refine ⟨by simp [mkStr_ne_empty], mkStr_ne_empty (capture_ne het),
    mkStr_ne_empty (capture_ne hac), mkStr_ne_empty (capture_ne hat),
    mkStr_ne_empty (actorArrow_ne hav).1, mkStr_ne_empty (actorArrow_ne hav).2⟩

/-- C2 (witness): a concrete line with a one-character target parses and
all its fields are non-empty. -/
theorem parse_line_fields_nonempty_witness :
    ({ log_id := "0x1", timestamp := 5, event_type := "E", action := "CRE",
       actor_type := "U", actor := "alice", target := "x",
       file := "a.vlog" } : Event).log_id ≠ "" ∧
    ({ log_id := "0x1", timestamp := 5, event_type := "E", action := "CRE",
       actor_type := "U", actor := "alice", target := "x",
       file := "a.vlog" } : Event).event_type ≠ "" ∧
    ({ log_id := "0x1", timestamp := 5, event_type := "E", action := "CRE",
       actor_type := "U", actor := "alice", target := "x",
       file := "a.vlog" } : Event).action ≠ "" ∧
    ({ log_id := "0x1", timestamp := 5, event_type := "E", action := "CRE",
       actor_type := "U", actor := "alice", target := "x",
       file := "a.vlog" } : Event).actor_type ≠ "" ∧
    ({ log_id := "0x1", timestamp := 5, event_type := "E", action := "CRE",
       actor_type := "U", actor := "alice", target := "x",
       file := "a.vlog" } : Event).actor ≠ "" ∧
    ({ log_id := "0x1", timestamp := 5, event_type := "E", action := "CRE",
       actor_type := "U", actor := "alice", target := "x",
       file := "a.vlog" } : Event).target ≠ "" :=
  parse_line_fields_nonempty "a.vlog" "0x1[ts:5]|EVNT:E!@CRE_U:alice=>x" _ (by rfl)

-- ===== claim theorems: empty batch and determinism =====

/-- C1: the claim says zero events yield an empty anomaly list without an
exception.  In the code, zero parsed events give `pd.DataFrame([])`, a
frame with no columns, and `df['timestamp']` at line 62 then raises
`KeyError` — the engine raises instead of returning an empty list. -/
theorem custom_anomaly_detection_empty_raises :
    custom_anomaly_detection [] = .error "KeyError: 'timestamp'" := rfl

/-- C7: the engine is deterministic — two runs on identical event
sequences return identical results (the embedding is a pure function; the
only enumeration the code depends on, pandas' groupby order, is itself a
sorted, input-determined order, cf. `groupKeys`). -/
theorem custom_anomaly_detection_deterministic (e1 e2 : List Event) (h : e1 = e2) :
    custom_anomaly_detection e1 = custom_anomaly_detection e2 := by rw [h]

/-- C7 (witness): determinism instantiated on a concrete singleton batch. -/
theorem custom_anomaly_detection_deterministic_witness :
    custom_anomaly_detection [dEv] = custom_anomaly_detection [dEv] :=
  custom_anomaly_detection_deterministic [dEv] [dEv] rfl

-- ===== lemmas about the stable timestamp sort =====

/-- Inserting is a permutation: `insertTs e l` rearranges `e :: l`. -/
theorem insertTs_perm (e : Event) (l : List Event) : List.Perm (insertTs e l) (e :: l) := by
  induction l with
  | nil => simp [insertTs]
  | cons b r ih =>
    unfold insertTs
    split
    · exact (List.Perm.cons b ih).trans (List.Perm.swap e b r)
    · exact List.Perm.refl _

/-- Sorting is a permutation of the input. -/
theorem sortTs_perm (l : List Event) : List.Perm (sortTs l) l := by
  induction l with
  | nil => exact List.Perm.refl _
  | cons e l ih => exact List.Perm.trans (insertTs_perm e (sortTs l)) (List.Perm.cons e ih)

/-- Membership is invariant under the timestamp sort. -/
theorem mem_sortTs {x : Event} {l : List Event} : x ∈ sortTs l ↔ x ∈ l :=
  (sortTs_perm l).mem_iff

/-- Insertion keeps a timestamp-sorted list sorted, also under any head
that bounds the inserted element. -/
theorem insertTs_sorted_aux (e : Event) :
    ∀ m : List Event, tsSortedB m = true →
      tsSortedB (insertTs e m) = true ∧
      ∀ b : Event, b.timestamp ≤ e.timestamp → tsSortedB (b :: m) = true →
        tsSortedB (b :: insertTs e m) = true := by
  intro m
  induction m with
  | nil =>
    intro _
    refine ⟨by simp [insertTs, tsSortedB], fun b hb _ => ?_⟩
    simp [insertTs, tsSortedB, hb]
  | cons c r ih =>
    intro hs
    have hr : tsSortedB r = true := by
      cases r with
      | nil => simp [tsSortedB]
      | cons d r' => exact (Bool.and_eq_true _ _ |>.mp hs).2
    unfold insertTs
    split
    · next hc =>
      have hstep : tsSortedB (c :: insertTs e r) = true :=
        (ih hr).2 c (Nat.le_of_lt hc) hs
      refine ⟨hstep, fun b _ hbs => ?_⟩
      have hbc : b.timestamp ≤ c.timestamp := by
        have := (Bool.and_eq_true _ _ |>.mp hbs).1
        simpa using this
      simpa [tsSortedB, hbc] using hstep
    · next hc =>
      have hec : e.timestamp ≤ c.timestamp := Nat.le_of_not_lt hc
      refine ⟨by simpa [tsSortedB, hec] using hs, fun b hb _ => ?_⟩
      simp only [tsSortedB, Bool.and_eq_true, decide_eq_true_eq]
      exact ⟨hb, by simpa [tsSortedB, hec] using hs⟩

/-- Model sort output is ascending by timestamp. -/
theorem sortTs_sorted (l : List Event) : tsSortedB (sortTs l) = true := by
  induction l with
  | nil => simp [sortTs, tsSortedB]
  | cons e l ih => exact (insertTs_sorted_aux e (sortTs l) ih).1

-- ===== claim theorems: engine state =====

/-- C3 (counterexample): the claim says the engine leaves the event
sequence's order unchanged.  It does not: line 63 sorts the caller's
frame in place (`inplace=True`), so an out-of-order two-event batch comes
back reordered. -/
theorem custom_anomaly_detection_mutates_order :
    custom_anomaly_detection
        [{ dEv with actor := "alice", timestamp := 10 },
         { dEv with actor := "alice", timestamp := 5 }]
      = .ok ([], [{ dEv with actor := "alice", timestamp := 5 },
                  { dEv with actor := "alice", timestamp := 10 }]) ∧
    [({ dEv with actor := "alice", timestamp := 5 } : Event),
     { dEv with actor := "alice", timestamp := 10 }] ≠
      [{ dEv with actor := "alice", timestamp := 10 },
       { dEv with actor := "alice", timestamp := 5 }] := by
  exact ⟨by rfl, by decide⟩

/-- C3 (amended): the engine does not treat its input as read-only — it
recomputes the derived datetime column and sorts the caller's frame in
place by timestamp (lines 62-63).  What does hold: no event record is
modified or lost — after the call the frame is a permutation of the
input that is ascending by timestamp (the relative order of equal
timestamps is left to the sort kind and is not asserted). -/
theorem custom_anomaly_detection_sorts_input (events : List Event) (h : events ≠ []) :
    ∃ anoms post, custom_anomaly_detection events = .ok (anoms, post) ∧
      List.Perm post events ∧ tsSortedB post = true := by
  refine ⟨(detectBody events).1, sortTs events, ?_, sortTs_perm events, sortTs_sorted events⟩
  unfold custom_anomaly_detection
  rw [if_neg (by simpa [List.isEmpty_iff] using h)]
  rfl

/-- C3 (witness): the amended statement instantiated on a concrete
singleton batch. -/
theorem custom_anomaly_detection_sorts_input_witness :
    ∃ anoms post, custom_anomaly_detection [dEv] = .ok (anoms, post) ∧
      List.Perm post [dEv] ∧ tsSortedB post = true :=
  custom_anomaly_detection_sorts_input [dEv] (by simp)

-- ===== lemmas about the look-ahead window and the rule loops =====

/-- Window membership characterization: `range(i+1, min(i+6, len))` holds
exactly the indices `i+1 … i+5` that exist. -/
theorem mem_windowIdxs {i len j : Nat} :
    j ∈ windowIdxs i len ↔ i + 1 ≤ j ∧ j ≤ i + 5 ∧ j < len := by
  unfold windowIdxs
  rw [List.mem_range'_1]
  omega

/-- A filterMap produces exactly one element per input on which the
function fires. -/
theorem length_filterMap_isSome {α β : Type} (f : α → Option β) :
    ∀ l : List α, (l.filterMap f).length = (l.filter (fun a => (f a).isSome)).length := by
  intro l
  induction l with
  | nil => rfl
  | cons a l ih =>
    cases hf : f a <;> simp [List.filterMap_cons, List.filter_cons, hf, ih]

/-- Elements the engine reads through `getD` at in-range indices are list
members. -/
theorem getD_mem {l : List Event} {j : Nat} (h : j < l.length) : l.getD j dEv ∈ l := by
  have he : l.getD j dEv = l[j] := by
    simp [List.getD_eq_getElem?_getD, List.getElem?_eq_getElem h]
  rw [he]
  exact List.getElem_mem h

/-- Members of an actor's view carry that actor and come from the input. -/
theorem mem_actorView {events : List Event} {a : String} {e : Event}
    (h : e ∈ actorView events a) : e.actor = a ∧ e ∈ events := by
  unfold actorView at h
  rw [mem_sortTs] at h
  refine ⟨by simpa using List.of_mem_filter h, ?_⟩
  have hm := List.mem_of_mem_filter h
  rwa [mem_sortTs] at hm

/-- Every Rule 1 anomaly is the Rule 1 constructor applied to the trigger
event and some in-range window event. -/
theorem rule1At_shape {user : String} {logs : List Event} {i : Nat} {an : Anomaly}
    (h : an ∈ rule1At user logs i) :
    ∃ j, j < logs.length ∧ an = mkRule1 user (logs.getD i dEv) (logs.getD j dEv) := by
  unfold rule1At at h
  split at h
  · obtain ⟨j, hj, hemit⟩ := List.mem_filterMap.mp h
    have hjlen : j < logs.length := (mem_windowIdxs.mp hj).2.2
    unfold rule1Emit at hemit
    split at hemit
    · split at hemit
      · cases hemit; exact ⟨j, hjlen, rfl⟩
      · exact absurd hemit (by simp)
    · exact absurd hemit (by simp)
  · exact absurd h (by simp)

/-- Every Rule 2 anomaly is the Rule 2 constructor applied to the trigger
event and some in-range window event. -/
theorem rule2At_shape {user : String} {logs : List Event} {i : Nat} {an : Anomaly}
    (h : an ∈ rule2At user logs i) :
    ∃ j, j < logs.length ∧ an = mkRule2 user (logs.getD i dEv) (logs.getD j dEv) := by
  unfold rule2At at h
  split at h
  · obtain ⟨j, hj, hemit⟩ := List.mem_filterMap.mp h
    have hjlen : j < logs.length := (mem_windowIdxs.mp hj).2.2
    unfold rule2Emit at hemit
    split at hemit
    · cases hemit; exact ⟨j, hjlen, rfl⟩
    · exact absurd hemit (by simp)
  · exact absurd h (by simp)

/-- Every Rule 3 anomaly is the Rule 3 constructor applied to the event at
the current index. -/
theorem rule3At_shape {user : String} {logs : List Event} {i : Nat} {an : Anomaly}
    (h : an ∈ rule3At user logs i) : an = mkRule3 user (logs.getD i dEv) := by
  unfold rule3At at h
  split at h
  · split at h
    · simpa using h
    · exact absurd h (by simp)
  · exact absurd h (by simp)

/-- Every Rule 4 anomaly is the Rule 4 constructor applied to the event at
the current index. -/
theorem rule4At_shape {user : String} {logs : List Event} {i : Nat} {an : Anomaly}
    (h : an ∈ rule4At user logs i) : an = mkRule4 user (logs.getD i dEv) := by
  unfold rule4At at h
  split at h
  · split at h
    · simpa using h
    · exact absurd h (by simp)
  · exact absurd h (by simp)

-- ===== claim theorems: windows and rules =====

/-- C5: Rule 1's time bound is inclusive at 600 seconds — for a SHD
trigger at `i` and a window index `j` whose action contains "DEL", the
loop body fires exactly when `timestamp[j] − timestamp[i] ≤ 600`, and
what it emits lands in the Rule 1 anomaly list. -/
theorem rule1_time_bound_inclusive (user : String) (logs : List Event) (i j : Nat)
    (hshd : pyIn "SHD" (logs.getD i dEv).action = true)
    (hj : j ∈ windowIdxs i logs.length)
    (hdel : pyIn "DEL" (logs.getD j dEv).action = true) :
    ((rule1Emit user logs i j).isSome = true ↔
      ((logs.getD j dEv).timestamp : Int) - ((logs.getD i dEv).timestamp : Int) ≤ 600) ∧
    ∀ an, rule1Emit user logs i j = some an → an ∈ rule1At user logs i := by
  constructor
  · unfold rule1Emit
    rw [if_pos hdel]
    split <;> simp_all
  · intro an han
    unfold rule1At
    rw [if_pos hshd]
    exact List.mem_filterMap.mpr ⟨j, hj, han⟩

/-- C5 (witness): a DEL exactly 600 seconds after its SHD trigger fires
and its anomaly is emitted. -/
theorem rule1_time_bound_inclusive_witness :
    ((rule1Emit "u" [{ dEv with actor := "u", action := "SHD", timestamp := 0 },
                     { dEv with actor := "u", action := "DEL", timestamp := 600 }] 0 1).isSome = true ↔
      ((([{ dEv with actor := "u", action := "SHD", timestamp := 0 },
          { dEv with actor := "u", action := "DEL", timestamp := 600 }] : List Event).getD 1 dEv).timestamp : Int) -
        ((([{ dEv with actor := "u", action := "SHD", timestamp := 0 },
            { dEv with actor := "u", action := "DEL", timestamp := 600 }] : List Event).getD 0 dEv).timestamp : Int) ≤ 600) ∧
    ∀ an, rule1Emit "u" [{ dEv with actor := "u", action := "SHD", timestamp := 0 },
                         { dEv with actor := "u", action := "DEL", timestamp := 600 }] 0 1 = some an →
      an ∈ rule1At "u" [{ dEv with actor := "u", action := "SHD", timestamp := 0 },
                        { dEv with actor := "u", action := "DEL", timestamp := 600 }] 0 :=
  rule1_time_bound_inclusive "u" _ 0 1 (by decide) (by decide) (by decide)

/-- C6: the look-ahead of Rules 1 and 2 is exactly the indices
`i+1 … min(i+5, len−1)` — an index `i+6` or later is never in the window —
and within it each qualifying `j` contributes exactly one anomaly to the
rule's output list. -/
theorem window_bounds_rules12 (user : String) (logs : List Event) (i j : Nat) :
    (j ∈ windowIdxs i logs.length ↔ i + 1 ≤ j ∧ j ≤ i + 5 ∧ j < logs.length) ∧
    (pyIn "SHD" (logs.getD i dEv).action = true →
      (rule1At user logs i).length =
        ((windowIdxs i logs.length).filter (fun j2 => (rule1Emit user logs i j2).isSome)).length) ∧
    (pyIn "CRE" (logs.getD i dEv).action = true →
      (rule2At user logs i).length =
        ((windowIdxs i logs.length).filter (fun j2 => (rule2Emit user logs i j2).isSome)).length) := by
  refine ⟨mem_windowIdxs, fun h1 => ?_, fun h2 => ?_⟩
  · unfold rule1At
    rw [if_pos h1]
    exact length_filterMap_isSome _ _
  · unfold rule2At
    rw [if_pos h2]
    exact length_filterMap_isSome _ _

/-- Concrete seven-event single-actor batch whose first event triggers
both a SHD and a CRE pattern; used to instantiate the window theorem. -/
def eventsC6 : List Event :=
  [{ dEv with actor := "u", action := "SHDCRE", target := "/tmp/f", timestamp := 0 },
   { dEv with actor := "u", action := "DEL", target := "/tmp/f", timestamp := 100 },
   { dEv with actor := "u", action := "NOP", timestamp := 200 },
   { dEv with actor := "u", action := "NOP", timestamp := 300 },
   { dEv with actor := "u", action := "NOP", timestamp := 400 },
   { dEv with actor := "u", action := "NOP", timestamp := 500 },
   { dEv with actor := "u", action := "DEL", target := "/tmp/f", timestamp := 550 }]

/-- C6 (witness): the window theorem instantiated at the concrete batch —
the hypotheses (SHD and CRE in the trigger's action) hold there. -/
theorem window_bounds_rules12_witness :
    ((rule1At "u" eventsC6 0).length =
      ((windowIdxs 0 eventsC6.length).filter
        (fun j2 => (rule1Emit "u" eventsC6 0 j2).isSome)).length) ∧
    ((rule2At "u" eventsC6 0).length =
      ((windowIdxs 0 eventsC6.length).filter
        (fun j2 => (rule2Emit "u" eventsC6 0 j2).isSome)).length) :=
  ⟨(window_bounds_rules12 "u" eventsC6 0 6).2.1 (by decide),
   (window_bounds_rules12 "u" eventsC6 0 6).2.2 (by decide)⟩

/-- C9: Rule 4 fires immediately with no look-ahead — during loop
iteration `i` of an event whose action contains "DEL", the anomalies with
reason "Deleted binary/suspicious executable file" are exactly one High
anomaly built from event `i` when its target ends with a catalog
extension or contains a catalog sensitive path, and none otherwise. -/
theorem rule4_exactly_one (user : String) (logs : List Event) (i : Nat)
    (hdel : pyIn "DEL" (logs.getD i dEv).action = true) :
    (anomaliesAt user logs i).filter
        (fun an => decide (an.reason = "Deleted binary/suspicious executable file")) =
      (if (del_extensions.any (fun x => pyEndsWith (logs.getD i dEv).target x)
           || sensitive_paths.any (fun p => pyIn p (logs.getD i dEv).target)) = true
       then [mkRule4 user (logs.getD i dEv)] else []) ∧
    (mkRule4 user (logs.getD i dEv)).severity = "High" := by
  constructor
  · unfold anomaliesAt
    rw [List.filter_append, List.filter_append, List.filter_append]
    have h1 : (rule1At user logs i).filter
        (fun an => decide (an.reason = "Deleted binary/suspicious executable file")) = [] := by
      rw [List.filter_eq_nil_iff]
      intro an ha
      obtain ⟨j, _, heq⟩ := rule1At_shape ha
      subst heq
      simp [mkRule1]
    have h2 : (rule2At user logs i).filter
        (fun an => decide (an.reason = "Deleted binary/suspicious executable file")) = [] := by
      rw [List.filter_eq_nil_iff]
      intro an ha
      obtain ⟨j, _, heq⟩ := rule2At_shape ha
      subst heq
      simp [mkRule2]
    have h3 : (rule3At user logs i).filter
        (fun an => decide (an.reason = "Deleted binary/suspicious executable file")) = [] := by
      rw [List.filter_eq_nil_iff]
      intro an ha
      have heq := rule3At_shape ha
      subst heq
      simp [mkRule3]
    rw [h1, h2, h3]
    simp only [List.nil_append]
    unfold rule4At
    rw [if_pos hdel]
    split
    · simp [mkRule4]
    · rfl
  · rfl

/-- C9 (witness): the Rule 4 theorem instantiated once on a suffix-only
match (`tool.so`, no sensitive path) and once on a prefix-only match
(`/tmp/data.txt`, no catalog extension); each yields exactly the one
anomaly. -/
theorem rule4_exactly_one_witness :
    (anomaliesAt "u" [{ dEv with actor := "u", action := "DEL", target := "tool.so" }] 0).filter
        (fun an => decide (an.reason = "Deleted binary/suspicious executable file")) =
      [mkRule4 "u" (([{ dEv with actor := "u", action := "DEL", target := "tool.so" }] : List Event).getD 0 dEv)] ∧
    (anomaliesAt "u" [{ dEv with actor := "u", action := "DEL", target := "/tmp/data.txt" }] 0).filter
        (fun an => decide (an.reason = "Deleted binary/suspicious executable file")) =
      [mkRule4 "u" (([{ dEv with actor := "u", action := "DEL", target := "/tmp/data.txt" }] : List Event).getD 0 dEv)] := by
  constructor
  · rw [(rule4_exactly_one "u" [{ dEv with actor := "u", action := "DEL", target := "tool.so" }] 0 (by decide)).1]
    decide
  · rw [(rule4_exactly_one "u" [{ dEv with actor := "u", action := "DEL", target := "/tmp/data.txt" }] 0 (by decide)).1]
    decide

/-- C8: actor isolation — every anomaly the engine emits is one of the
four rule constructors applied to events of the batch whose actor field
equals the anomaly's user field; no other actor's events are referenced. -/
theorem anomaly_actor_isolation (events : List Event) (an : Anomaly)
    (h : an ∈ (detectBody events).1) :
    ∃ ei ej, ei ∈ events ∧ ej ∈ events ∧ ei.actor = an.user ∧ ej.actor = an.user ∧
      (an = mkRule1 an.user ei ej ∨ an = mkRule2 an.user ei ej ∨
       an = mkRule3 an.user ei ∨ an = mkRule4 an.user ei) := by
  obtain ⟨a, ha, han⟩ := List.mem_flatMap.mp h
  obtain ⟨i, hi, hat⟩ := List.mem_flatMap.mp han
  rw [List.mem_range] at hi
  unfold anomaliesAt at hat
  simp only [List.mem_append] at hat
  rcases hat with ((h1 | h2) | h3) | h4
  · obtain ⟨j, hjlen, heq⟩ := rule1At_shape h1
    have hu : an.user = a := by rw [heq]; rfl
    obtain ⟨hia, hie⟩ := mem_actorView (getD_mem hi)
    obtain ⟨hja, hje⟩ := mem_actorView (getD_mem hjlen)
    exact ⟨_, _, hie, hje, hia.trans hu.symm, hja.trans hu.symm,
      Or.inl (by rw [hu]; exact heq)⟩
  · obtain ⟨j, hjlen, heq⟩ := rule2At_shape h2
    have hu : an.user = a := by rw [heq]; rfl
    obtain ⟨hia, hie⟩ := mem_actorView (getD_mem hi)
    obtain ⟨hja, hje⟩ := mem_actorView (getD_mem hjlen)
    exact ⟨_, _, hie, hje, hia.trans hu.symm, hja.trans hu.symm,
      Or.inr (Or.inl (by rw [hu]; exact heq))⟩
  · have heq := rule3At_shape h3
    have hu : an.user = a := by rw [heq]; rfl
    obtain ⟨hia, hie⟩ := mem_actorView (getD_mem hi)
    exact ⟨_, _, hie, hie, hia.trans hu.symm, hia.trans hu.symm,
      Or.inr (Or.inr (Or.inl (by rw [hu]; exact heq)))⟩
  · have heq := rule4At_shape h4
    have hu : an.user = a := by rw [heq]; rfl
    obtain ⟨hia, hie⟩ := mem_actorView (getD_mem hi)
    exact ⟨_, _, hie, hie, hia.trans hu.symm, hia.trans hu.symm,
      Or.inr (Or.inr (Or.inr (by rw [hu]; exact heq)))⟩

/-- Concrete one-event batch (a suspicious-binary execution) used to
instantiate the isolation theorem. -/
def eventsC8 : List Event :=
  [{ dEv with actor := "alice", action := "RUN", target := "/bin/nc -l 4444", timestamp := 1, file := "f.vlog" }]

/-- C8 (witness): the isolation theorem instantiated on the concrete
batch and the Rule 3 anomaly it emits. -/
theorem anomaly_actor_isolation_witness :
    ∃ ei ej, ei ∈ eventsC8 ∧ ej ∈ eventsC8 ∧
      ei.actor = (mkRule3 "alice" (eventsC8.getD 0 dEv)).user ∧
      ej.actor = (mkRule3 "alice" (eventsC8.getD 0 dEv)).user ∧
      (mkRule3 "alice" (eventsC8.getD 0 dEv) =
         mkRule1 (mkRule3 "alice" (eventsC8.getD 0 dEv)).user ei ej ∨
       mkRule3 "alice" (eventsC8.getD 0 dEv) =
         mkRule2 (mkRule3 "alice" (eventsC8.getD 0 dEv)).user ei ej ∨
       mkRule3 "alice" (eventsC8.getD 0 dEv) =
         mkRule3 (mkRule3 "alice" (eventsC8.getD 0 dEv)).user ei ∨
       mkRule3 "alice" (eventsC8.getD 0 dEv) =
         mkRule4 (mkRule3 "alice" (eventsC8.getD 0 dEv)).user ei) :=
  anomaly_actor_isolation eventsC8 (mkRule3 "alice" (eventsC8.getD 0 dEv))
    (by rw [show (detectBody eventsC8).1 = [mkRule3 "alice" (eventsC8.getD 0 dEv)] from rfl]
        exact List.mem_singleton.mpr rfl)

-- ===== lemmas about the sorted group keys =====

/-- Lexicographic comparison is trichotomous. -/
theorem charListLt_cases : ∀ x y : List Char,
    x = y ∨ charListLt x y = true ∨ charListLt y x = true := by
  intro x
  induction x with
  | nil =>
    intro y
    cases y with
    | nil => exact Or.inl rfl
    | cons b bs => exact Or.inr (Or.inl (by simp [charListLt]))
  | cons a as ih =>
    intro y
    cases y with
    | nil => exact Or.inr (Or.inr (by simp [charListLt]))
    | cons b bs =>
      rcases lt_trichotomy a b with h | h | h
      · refine Or.inr (Or.inl ?_)
        unfold charListLt
        rw [if_pos h]
      · subst h
        rcases ih bs with h' | h' | h'
        · exact Or.inl (by rw [h'])
        · refine Or.inr (Or.inl ?_)
          unfold charListLt
          rw [if_neg (lt_irrefl a), if_neg (lt_irrefl a)]
          exact h'
        · refine Or.inr (Or.inr ?_)
          unfold charListLt
          rw [if_neg (lt_irrefl a), if_neg (lt_irrefl a)]
          exact h'
      · refine Or.inr (Or.inr ?_)
        unfold charListLt
        rw [if_pos h]

/-- String comparison is trichotomous. -/
theorem strLtB_cases (x y : String) : x = y ∨ strLtB x y = true ∨ strLtB y x = true := by
  rcases charListLt_cases x.data y.data with h | h | h
  · exact Or.inl (by cases x; cases y; exact congrArg String.mk h)
  · exact Or.inr (Or.inl h)
  · exact Or.inr (Or.inr h)

/-- Sorted-key insertion keeps a strictly ascending key list strictly
ascending, also under any strictly smaller head. -/
theorem insertKey_sorted_aux (a : String) :
    ∀ ks, strSortedB ks = true →
      strSortedB (insertKey a ks) = true ∧
      ∀ b, strLtB b a = true → strSortedB (b :: ks) = true →
        strSortedB (b :: insertKey a ks) = true := by
  intro ks
  induction ks with
  | nil =>
    intro _
    refine ⟨rfl, fun b hb _ => ?_⟩
    simp [insertKey, strSortedB, hb]
  | cons c r ih =>
    intro hs
    have hr : strSortedB r = true := by
      cases r with
      | nil => rfl
      | cons d r' => exact (Bool.and_eq_true _ _ |>.mp hs).2
    unfold insertKey
    split
    · next hac =>
      refine ⟨by simp [strSortedB, hac, hs], fun b hb _ => ?_⟩
      simp only [strSortedB, Bool.and_eq_true]
      exact ⟨hb, by simp [strSortedB, hac, hs]⟩
    · split
      · exact ⟨hs, fun b _ hbs => hbs⟩
      · next hnac hne =>
        have hca : strLtB c a = true := by
          rcases strLtB_cases a c with h | h | h
          · exact absurd h hne
          · exact absurd h (by simpa using hnac)
          · exact h
        have hstep : strSortedB (c :: insertKey a r) = true := (ih hr).2 c hca hs
        refine ⟨hstep, fun b _ hbs => ?_⟩
        simp only [strSortedB, Bool.and_eq_true] at hbs ⊢
        exact ⟨hbs.1, hstep⟩

/-- Key insertion inserts exactly the new key. -/
theorem mem_insertKey {x a : String} : ∀ ks, x ∈ insertKey a ks ↔ x = a ∨ x ∈ ks := by
  intro ks
  induction ks with
  | nil => simp [insertKey]
  | cons b r ih =>
    unfold insertKey
    split
    · simp [List.mem_cons]
    · split
      · next hab =>
        subst hab
        simp [List.mem_cons]
      · simp only [List.mem_cons, ih]
        tauto

/-- Folding the batch into the key list preserves sortedness and collects
exactly the actors seen. -/
theorem groupKeys_aux :
    ∀ (l : List Event) (ks : List String), strSortedB ks = true →
      strSortedB (l.foldl (fun ks e => insertKey e.actor ks) ks) = true ∧
      ∀ x, x ∈ l.foldl (fun ks e => insertKey e.actor ks) ks ↔
        x ∈ ks ∨ x ∈ l.map (fun e => e.actor) := by
  intro l
  induction l with
  | nil =>
    intro ks hks
    exact ⟨hks, by simp⟩
  | cons e l ih =>
    intro ks hks
    have hik := (insertKey_sorted_aux e.actor ks hks).1
    obtain ⟨hs, hm⟩ := ih (insertKey e.actor ks) hik
    refine ⟨hs, fun x => ?_⟩
    rw [List.foldl_cons, hm x, mem_insertKey]
    simp only [List.map_cons, List.mem_cons]
    tauto

-- ===== claim theorems: actor enumeration =====

/-- C10: the engine enumerates actor groups in strictly ascending order
of the actor identifier string (pandas' sorted groupby), and the key list
holds exactly the actors present in the batch — so the anomaly
concatenation order is a function of the input sequence alone. -/
theorem groupKeys_sorted_complete (events : List Event) :
    strSortedB (groupKeys events) = true ∧
    ∀ a, a ∈ groupKeys events ↔ a ∈ events.map (fun e => e.actor) := by
  obtain ⟨hs, hm⟩ := groupKeys_aux events [] rfl
  refine ⟨hs, fun a => ?_⟩
  rw [groupKeys, hm a]
  simp
